import Mathlib

/-!
Verification of the rotkehlchen historical event cache and reconciliation
layer (history module) against its specification.

The repository slice at hand contains the test suite
(`rotkehlchen/tests/test_history.py`) and asset constants
(`rotkehlchen/constants/assets.py`).  The history module itself
(`rotkehlchen/history.py` with `limit_trade_list_to_period`,
`_get_cached_asset_movements` and the history aggregator) is not part of the
slice, so those operations are modelled from the specification, with the
observable behaviour pinned by the in-repository tests.
-/

/-- Exact-precision decimal values (the `FVal` type of the code wraps a
decimal number with no binary floating point involved); modelled as `ℚ`. -/
abbrev FVal := ℚ

/-- A validated asset reference (`rotkehlchen/assets/asset.py` `Asset`). -/
structure Asset where
  symbol : String
deriving DecidableEq, Repr

/-- The supported exchanges enum (`rotkehlchen/typing.py` `Exchange`). -/
inductive Exchange where
  | kraken
  | poloniex
  | binance
  | bittrex
  | bitmex
deriving DecidableEq, Repr

/-- Trade direction enum (`rotkehlchen/typing.py` `TradeType`). -/
inductive TradeType where
  | buy
  | sell
deriving DecidableEq, Repr

/-- Modelled from the spec: the canonical exchange-name strings accepted by
the deserializer (lowercase identifiers of the five supported exchanges). -/
def exchangeFromString (s : String) : Option Exchange :=
  if s = "kraken" then some Exchange.kraken
  else if s = "poloniex" then some Exchange.poloniex
  else if s = "binance" then some Exchange.binance
  else if s = "bittrex" then some Exchange.bittrex
  else if s = "bitmex" then some Exchange.bitmex
  else none

/-- Modelled from the spec: the asset registry (the spec's "asset
registry" resolving identifiers to known assets; the slice's
`constants/assets.py` lists the fiat and base crypto assets, and the tests
additionally resolve KFEE).  An identifier resolves iff it is in this list. -/
def knownAssets : List String :=
  ["USD", "EUR", "GBP", "JPY", "CNY", "CAD", "KRW",
   "ETC", "BCH", "BSV", "BTC", "ETH", "KFEE"]

/-- The numeric value of a decimal digit character, `none` on a non-digit. -/
def digitVal (c : Char) : Option ℕ :=
  if 48 ≤ c.toNat ∧ c.toNat ≤ 57 then some (c.toNat - 48) else none

/-- Read a nonempty all-digit character list as a natural number. -/
def digitsToNat (cs : List Char) : Option ℕ :=
  if cs.isEmpty then none
  else
    cs.foldl
      (fun acc c =>
        match acc, digitVal c with
        | some a, some d => some (10 * a + d)
        | _, _ => none)
      (some 0)

/-- Split a character list at the first occurrence of `sep`, `none` when
`sep` does not occur. -/
def splitAtChar (sep : Char) : List Char → Option (List Char × List Char)
  | [] => none
  | c :: cs =>
    if c = sep then some ([], cs)
    else
      match splitAtChar sep cs with
      | some (a, b) => some (c :: a, b)
      | none => none

/-- Digits-and-one-optional-dot decimal parser, modelled from the spec:
`amount`/`fee`/`rate` must be parseable as non-negative decimals from a
numeric-looking string, with exact textual precision (no binary floating
point rounding); `"0.0"` and `"0"` both parse to the same zero. -/
def parseDecimal (s : String) : Option FVal :=
  match splitAtChar '.' s.data with
  | none => (digitsToNat s.data).map (fun n => (n : ℚ))
  | some (a, b) =>
    if b.all (fun c => c ≠ '.') then
      match digitsToNat a, digitsToNat b with
      | some n, some m => some ((n : ℚ) + (m : ℚ) / (10 : ℚ) ^ b.length)
      | _, _ => none
    else none

/-- A raw JSON-like value as read from a cache file, before validation. -/
inductive RawValue where
  | null : RawValue
  | int (n : ℤ) : RawValue
  | str (s : String) : RawValue
  | list (xs : List RawValue) : RawValue
  | obj (fields : List (String × RawValue)) : RawValue

/-- Field lookup in a raw record (a JSON object's key/value list). -/
def lookupField (fields : List (String × RawValue)) (k : String) : Option RawValue :=
  (fields.find? (fun p => p.1 = k)).map (fun p => p.2)

/-- The structured error raised on cache corruption
(`rotkehlchen/errors.py` `HistoryCacheInvalid`). -/
inductive HistoryCacheInvalid where
  | mk : HistoryCacheInvalid
deriving DecidableEq, Repr

/-- A deposit/withdrawal event (`rotkehlchen/exchanges/data_structures.py`
`AssetMovement`). -/
structure AssetMovement where
  exchange : Exchange
  category : String
  timestamp : ℤ
  asset : Asset
  amount : FVal
  fee : FVal
deriving DecidableEq, Repr

/-- Extract a raw `amount`/`fee` value as an exact decimal: a numeric string
is parsed by `parseDecimal`, an integer is accepted as-is, anything else
(null, list, object) fails. -/
def rawToDecimal (v : RawValue) : Option FVal :=
  match v with
  | RawValue.str s => parseDecimal s
  | RawValue.int n => some ((n : ℚ))
  | _ => none

/-- Modelled from the spec: the asset-movement record deserializer (the
missing `rotkehlchen/history.py` cache reading turns each raw dict into an
`AssetMovement`).  Validates presence of every required key; `exchange` must
be a recognized exchange name, `category` exactly "deposit" or "withdrawal",
`timestamp` an integer, `asset` a string resolving through the registry,
`amount` and `fee` non-negative decimals.  Any violation fails with
`HistoryCacheInvalid`; no best-effort defaulting. -/
def deserializeAssetMovement (v : RawValue) : Except HistoryCacheInvalid AssetMovement :=
  match v with
  | RawValue.obj f =>
    match lookupField f "exchange" with
    | some (RawValue.str exs) =>
      match exchangeFromString exs with
      | some ex =>
        match lookupField f "category" with
        | some (RawValue.str cat) =>
          if cat = "deposit" ∨ cat = "withdrawal" then
            match lookupField f "timestamp" with
            | some (RawValue.int ts) =>
              match lookupField f "asset" with
              | some (RawValue.str a) =>
                if a ∈ knownAssets then
                  match lookupField f "amount" with
                  | some av =>
                    match rawToDecimal av with
                    | some amount =>
                      match lookupField f "fee" with
                      | some fv =>
                        match rawToDecimal fv with
                        | some fee =>
                          Except.ok
                            { exchange := ex, category := cat, timestamp := ts,
                              asset := Asset.mk a, amount := amount, fee := fee }
                        | none => Except.error HistoryCacheInvalid.mk
                      | none => Except.error HistoryCacheInvalid.mk
                    | none => Except.error HistoryCacheInvalid.mk
                  | none => Except.error HistoryCacheInvalid.mk
                else Except.error HistoryCacheInvalid.mk
              | _ => Except.error HistoryCacheInvalid.mk
            | _ => Except.error HistoryCacheInvalid.mk
          else Except.error HistoryCacheInvalid.mk
        | _ => Except.error HistoryCacheInvalid.mk
      | none => Except.error HistoryCacheInvalid.mk
    | _ => Except.error HistoryCacheInvalid.mk
  | _ => Except.error HistoryCacheInvalid.mk

/-- The full set of required keys for an asset-movement record. -/
def requiredMovementKeys : List String :=
  ["exchange", "category", "timestamp", "asset", "amount", "fee"]

/-- A required key of the asset-movement schema is absent. -/
def hasMissingKey (f : List (String × RawValue)) : Bool :=
  requiredMovementKeys.any (fun k => (lookupField f k).isNone)

/-- The `timestamp` field holds a string instead of an integer. -/
def timestampIsString (f : List (String × RawValue)) : Bool :=
  match lookupField f "timestamp" with
  | some (RawValue.str _) => true
  | _ => false

/-- The `amount` field is null. -/
def amountIsNull (f : List (String × RawValue)) : Bool :=
  match lookupField f "amount" with
  | some RawValue.null => true
  | _ => false

/-- The `fee` field holds a non-numeric string. -/
def feeNonNumericString (f : List (String × RawValue)) : Bool :=
  match lookupField f "fee" with
  | some (RawValue.str s) => (parseDecimal s).isNone
  | _ => false

/-- The `asset` field holds a structured value (a list). -/
def assetIsList (f : List (String × RawValue)) : Bool :=
  match lookupField f "asset" with
  | some (RawValue.list _) => true
  | _ => false

/-- The `exchange` field holds an unrecognized exchange name. -/
def exchangeUnrecognized (f : List (String × RawValue)) : Bool :=
  match lookupField f "exchange" with
  | some (RawValue.str s) => (exchangeFromString s).isNone
  | _ => false

/-- The `category` field holds a string other than "deposit"/"withdrawal". -/
def categoryUnrecognized (f : List (String × RawValue)) : Bool :=
  match lookupField f "category" with
  | some (RawValue.str s) => !(decide (s = "deposit" ∨ s = "withdrawal"))
  | _ => false

/-- The `asset` field holds an identifier the registry does not resolve. -/
def assetUnresolved (f : List (String × RawValue)) : Bool :=
  match lookupField f "asset" with
  | some (RawValue.str s) => !(decide (s ∈ knownAssets))
  | _ => false

/-- A record exhibits at least one of the eight corruption modes the tests
exercise against the asset-movements cache. -/
def badMovementRecord (f : List (String × RawValue)) : Bool :=
  hasMissingKey f || timestampIsString f || amountIsNull f ||
    feeNonNumericString f || assetIsList f || exchangeUnrecognized f ||
    categoryUnrecognized f || assetUnresolved f

/-- Modelled from the spec: deserialization of a whole cached `data` list
(the missing `rotkehlchen/history.py` loop over cached records); the first
record failing `deserializeAssetMovement` aborts with `HistoryCacheInvalid`,
so bad records are never silently dropped. -/
def deserializeMovements : List RawValue → Except HistoryCacheInvalid (List AssetMovement)
  | [] => Except.ok []
  | r :: rs =>
    match deserializeAssetMovement r with
    | Except.error e => Except.error e
    | Except.ok m =>
      match deserializeMovements rs with
      | Except.error e => Except.error e
      | Except.ok ms => Except.ok (m :: ms)

/-- Structural parse of a cache envelope: the file's JSON value must be an
object holding integer `start_time` and `end_time` and a list `data`
(`CacheEnvelopeCodec.load` of the spec). -/
def parseEnvelope (v : RawValue) : Option (ℤ × ℤ × List RawValue) :=
  match v with
  | RawValue.obj f =>
    match lookupField f "start_time", lookupField f "end_time", lookupField f "data" with
    | some (RawValue.int st), some (RawValue.int et), some (RawValue.list d) =>
      some (st, et, d)
    | _, _, _ => none
  | _ => none

/-- Coverage test of the spec's CacheValidator: the envelope range must
contain `[start_ts, end_ts]` and, when `end_at_least_ts` is given, reach at
least that far. -/
def coverageOk (st et start_ts end_ts : ℤ) (end_at_least_ts : Option ℤ) : Bool :=
  decide (st ≤ start_ts) && decide (end_ts ≤ et) &&
    (match end_at_least_ts with
     | some t => decide (t ≤ et)
     | none => true)

/-- Modelled from the spec: `_get_cached_asset_movements` of the missing
`rotkehlchen/history.py`.  The cache file (absent, or an already-parsed JSON
value) is structurally validated, its coverage of the requested range is
checked, and every raw record is deserialized; any failure raises
`HistoryCacheInvalid`. -/
def get_cached_asset_movements (file : Option RawValue) (start_ts end_ts : ℤ)
    (end_at_least_ts : Option ℤ) : Except HistoryCacheInvalid (List AssetMovement) :=
  match file with
  | none => Except.error HistoryCacheInvalid.mk
  | some v =>
    match parseEnvelope v with
    | none => Except.error HistoryCacheInvalid.mk
    | some (st, et, d) =>
      if coverageOk st et start_ts end_ts end_at_least_ts then
        deserializeMovements d
      else Except.error HistoryCacheInvalid.mk

/-- A trade event (`rotkehlchen/exchanges/data_structures.py` `Trade`). -/
structure Trade where
  timestamp : ℤ
  location : String
  pair : String
  trade_type : TradeType
  amount : FVal
  rate : FVal
  fee : FVal
  fee_currency : Asset
deriving DecidableEq, Repr

/-- Modelled from the spec: `limit_trade_list_to_period` of the missing
`rotkehlchen/history.py` (the spec's PeriodFilter).  Keeps, in original
order, every event whose timestamp lies between the two bounds inclusive,
regardless of which bound is numerically larger. -/
def limit_trade_list_to_period (trades_list : List Trade) (start_ts end_ts : ℤ) :
    List Trade :=
  trades_list.filter
    (fun t =>
      decide (min start_ts end_ts ≤ t.timestamp) &&
        decide (t.timestamp ≤ max start_ts end_ts))

/-- Modelled from the spec: the per-exchange lists of known-but-unsupported
asset identifiers (the identifiers the repository's tests exercise). -/
def unsupportedAssets : List String :=
  ["BALLS", "DIS", "EBT", "BDC", "PTON"]

/-- Decompose a trading pair of the form `BASE_QUOTE`; `none` when the
string does not split at an underscore into two nonempty parts. -/
def splitPair (p : String) : Option (String × String) :=
  match splitAtChar '_' p.data with
  | some (a, b) =>
    if a.isEmpty || b.isEmpty || !(b.all (fun c => c ≠ '_')) then none
    else some (String.mk a, String.mk b)
  | none => none

/-- Classification of one raw trade record during history creation. -/
inductive TradeOutcome where
  | ok (t : Trade) : TradeOutcome
  | unknownAsset (ident : String) : TradeOutcome
  | unsupportedAsset (ident : String) : TradeOutcome
  | unprocessablePair (p : String) : TradeOutcome
deriving DecidableEq, Repr

/-- A raw trade record as fetched live from an exchange, before its trading
pair is validated against the asset registry. -/
structure RawTradeRecord where
  pair : String
  timestamp : ℤ
  trade_type : TradeType
  amount : FVal
  rate : FVal
  fee : FVal
deriving DecidableEq, Repr

/-- Modelled from the spec: per-record validation of a live trade record.
A pair that does not decompose is unprocessable; a decomposed pair whose
base or quote is a known-but-unsupported asset, or is not resolved by the
registry, is rejected with the offending identifier; otherwise a canonical
`Trade` is produced. -/
def classifyTradeRecord (exch : String) (r : RawTradeRecord) : TradeOutcome :=
  match splitPair r.pair with
  | none => TradeOutcome.unprocessablePair r.pair
  | some (b, q) =>
    if b ∈ unsupportedAssets then TradeOutcome.unsupportedAsset b
    else if !(decide (b ∈ knownAssets)) then TradeOutcome.unknownAsset b
    else if q ∈ unsupportedAssets then TradeOutcome.unsupportedAsset q
    else if !(decide (q ∈ knownAssets)) then TradeOutcome.unknownAsset q
    else
      TradeOutcome.ok
        { timestamp := r.timestamp, location := exch, pair := r.pair,
          trade_type := r.trade_type, amount := r.amount, rate := r.rate,
          fee := r.fee, fee_currency := Asset.mk q }

/-- The warning recorded for a trade record with an unknown or unsupported
asset, naming the exchange and the identifier. -/
def tradeWarningOf (exch : String) (r : RawTradeRecord) : Option String :=
  match classifyTradeRecord exch r with
  | TradeOutcome.unknownAsset a => some (exch ++ " trade with unknown asset " ++ a)
  | TradeOutcome.unsupportedAsset a => some (exch ++ " trade with unsupported asset " ++ a)
  | _ => none

/-- The error recorded for a trade record whose pair cannot be processed. -/
def tradeErrorOf (exch : String) (r : RawTradeRecord) : Option String :=
  match classifyTradeRecord exch r with
  | TradeOutcome.unprocessablePair p => some (exch ++ " trade with unprocessable pair " ++ p)
  | _ => none

/-- The canonical event a valid trade record yields. -/
def tradeEventOf (exch : String) (r : RawTradeRecord) : Option Trade :=
  match classifyTradeRecord exch r with
  | TradeOutcome.ok t => some t
  | _ => none

/-- Modelled from the spec: the aggregator's per-batch processing of live
trade records.  Valid records become events in order; records with an
unknown or unsupported asset are skipped with one warning each; records
with an unprocessable pair are skipped with one error message each;
processing never aborts. -/
def processTradeBatch (exch : String) :
    List RawTradeRecord → List Trade × List String × List String
  | [] => ([], [], [])
  | r :: rs =>
    let rest := processTradeBatch exch rs
    match classifyTradeRecord exch r with
    | TradeOutcome.ok t => (t :: rest.1, rest.2.1, rest.2.2)
    | TradeOutcome.unknownAsset a =>
      (rest.1, (exch ++ " trade with unknown asset " ++ a) :: rest.2.1, rest.2.2)
    | TradeOutcome.unsupportedAsset a =>
      (rest.1, (exch ++ " trade with unsupported asset " ++ a) :: rest.2.1, rest.2.2)
    | TradeOutcome.unprocessablePair p =>
      (rest.1, rest.2.1, (exch ++ " trade with unprocessable pair " ++ p) :: rest.2.2)

/-- Classification of one raw asset-movement record fetched live. -/
inductive MovementOutcome where
  | ok (m : AssetMovement) : MovementOutcome
  | unknownAsset (ident : String) : MovementOutcome
  | malformed : MovementOutcome

/-- Modelled from the spec: live asset-movement records are deserialized
like cached ones, but an identifier the registry cannot resolve is the
distinct "unknown asset" failure rather than plain corruption. -/
def classifyMovementRecord (r : RawValue) : MovementOutcome :=
  match deserializeAssetMovement r with
  | Except.ok m => MovementOutcome.ok m
  | Except.error _ =>
    match r with
    | RawValue.obj f =>
      match lookupField f "asset" with
      | some (RawValue.str a) =>
        if a ∈ knownAssets then MovementOutcome.malformed
        else MovementOutcome.unknownAsset a
      | _ => MovementOutcome.malformed
    | _ => MovementOutcome.malformed

/-- Modelled from the spec: the aggregator's per-batch processing of live
asset-movement records: valid records become events, unknown-asset records
are skipped with a warning, malformed records are skipped with an error
message; processing never aborts. -/
def processMovementBatch (exch : String) :
    List RawValue → List AssetMovement × List String × List String
  | [] => ([], [], [])
  | r :: rs =>
    let rest := processMovementBatch exch rs
    match classifyMovementRecord r with
    | MovementOutcome.ok m => (m :: rest.1, rest.2.1, rest.2.2)
    | MovementOutcome.unknownAsset a =>
      (rest.1, ("unknown " ++ exch ++ " asset " ++ a ++ ". Ignoring its deposit/withdrawals query") :: rest.2.1, rest.2.2)
    | MovementOutcome.malformed =>
      (rest.1, rest.2.1, ("malformed " ++ exch ++ " asset movement record") :: rest.2.2)

/-- Modelled from the spec: the aggregator's cache-or-refetch step for the
asset movements of one exchange.  A usable, fully deserializable cache is
returned as-is with no new warnings or errors; any cache failure triggers a
full live refetch (`liveRecords` is the live response), whose processing
alone contributes events, warnings and errors. -/
def getMovementsWithCacheFallback (exch : String) (file : Option RawValue)
    (liveRecords : List RawValue) (start_ts end_ts : ℤ) (end_at_least_ts : Option ℤ) :
    List AssetMovement × List String × List String :=
  match get_cached_asset_movements file start_ts end_ts end_at_least_ts with
  | Except.ok ms => (ms, [], [])
  | Except.error _ => processMovementBatch exch liveRecords

/-- The closed set of event categories the history request covers. -/
inductive Category where
  | trades : Category
  | assetMovements : Category
  | margin : Category
  | txlog : Category
deriving DecidableEq, Repr

/-- The raw per-category payload one exchange's live fetch returns. -/
structure FetchedData where
  tradeRecords : List RawTradeRecord
  movementRecords : List RawValue
  marginRecords : List RawValue
  txRecords : List RawValue

/-- One configured exchange together with the outcome of its live fetch
(a remote error with its message, or the fetched raw data). -/
structure ExchangeSource where
  name : String
  fetched : Except String FetchedData

/-- A validated, typed domain event. -/
inductive Event where
  | trade (t : Trade) : Event
  | movement (m : AssetMovement) : Event

/-- Render a list of exchange names into one enumeration string. -/
def renderNames : List String → String
  | [] => ""
  | [n] => n
  | n :: rest => n ++ ", " ++ renderNames rest

/-- The names of the exchanges whose live fetch incurred a remote error. -/
def failedNames (srcs : List ExchangeSource) : List String :=
  srcs.filterMap
    (fun s =>
      match s.fetched with
      | Except.error _ => some s.name
      | Except.ok _ => none)

/-- The events one exchange contributes to one category: nothing on a
remote error, otherwise the valid part of the fetched records. -/
def exchangeEvents (s : ExchangeSource) (c : Category) : List Event :=
  match s.fetched with
  | Except.error _ => []
  | Except.ok d =>
    match c with
    | Category.trades => ((processTradeBatch s.name d.tradeRecords).1).map Event.trade
    | Category.assetMovements =>
      ((processMovementBatch s.name d.movementRecords).1).map Event.movement
    | Category.margin => ((processMovementBatch s.name d.marginRecords).1).map Event.movement
    | Category.txlog => ((processMovementBatch s.name d.txRecords).1).map Event.movement

/-- The overall outcome of one history request. -/
structure HistoryOutcome where
  eventsByCategory : Category → List Event
  message : String
  failedExchanges : List String

/-- Modelled from the spec: the overall `get_history` decision of the
missing `rotkehlchen/history.py`.  Every exchange is attempted; per-exchange
remote errors are collected; only when every configured exchange failed does
the call fail, with a message enumerating all failing exchanges by name;
otherwise the message is empty. -/
def get_history (srcs : List ExchangeSource) : HistoryOutcome :=
  let failed := failedNames srcs
  { eventsByCategory := fun c => srcs.foldr (fun s acc => exchangeEvents s c ++ acc) []
    message :=
      if srcs.length ≠ 0 ∧ failed.length = srcs.length then renderNames failed else ""
    failedExchanges := failed }

/-- The exact decimal one tenth, the `FVal('0.1')` fee of the test trades. -/
def feeTenth : FVal := Rat.mk' 1 10 (by decide) (by decide)

/-- First trade of `test_limit_trade_list_to_period`. -/
def trade1 : Trade :=
  { timestamp := 1459427707, location := "kraken", pair := "ETH_BTC",
    trade_type := TradeType.buy, amount := 1, rate := 1, fee := feeTenth,
    fee_currency := Asset.mk "ETH" }

/-- Second trade of `test_limit_trade_list_to_period`. -/
def trade2 : Trade :=
  { timestamp := 1469427707, location := "poloniex", pair := "ETH_BTC",
    trade_type := TradeType.buy, amount := 1, rate := 1, fee := feeTenth,
    fee_currency := Asset.mk "ETH" }

/-- Third trade of `test_limit_trade_list_to_period`. -/
def trade3 : Trade :=
  { timestamp := 1479427707, location := "poloniex", pair := "ETH_BTC",
    trade_type := TradeType.buy, amount := 1, rate := 1, fee := feeTenth,
    fee_currency := Asset.mk "ETH" }

/-- The period filter reproduces every window assertion of the repository's
`test_limit_trade_list_to_period`. -/
theorem limit_trade_list_to_period_test_assertions :
    limit_trade_list_to_period [trade1, trade2, trade3] 1459427706 1479427708 =
      [trade1, trade2, trade3] ∧
    limit_trade_list_to_period [trade1, trade2, trade3] 1459427707 1479427708 =
      [trade1, trade2, trade3] ∧
    limit_trade_list_to_period [trade1, trade2, trade3] 1459427707 1479427707 =
      [trade1, trade2, trade3] ∧
    limit_trade_list_to_period [trade1, trade2, trade3] 1459427708 1479427707 =
      [trade2, trade3] ∧
    limit_trade_list_to_period [trade1, trade2, trade3] 1459427708 1479427706 = [trade2] ∧
    limit_trade_list_to_period [trade1, trade2, trade3] 0 10 = [] ∧
    limit_trade_list_to_period [trade1, trade2, trade3] 1479427708 1479427719 = [] ∧
    limit_trade_list_to_period [trade1, trade2, trade3] 1459427707 1459427707 = [trade1] ∧
    limit_trade_list_to_period [trade1, trade2, trade3] 1469427707 1469427707 = [trade2] ∧
    limit_trade_list_to_period [trade1, trade2, trade3] 1479427707 1479427707 = [trade3] := by
  decide

/-- C1 (amended: bounds in order, `start_ts ≤ end_ts`): for every list of
events sorted ascending by timestamp and bounds with `start_ts ≤ end_ts`,
`limit_trade_list_to_period` returns exactly the events whose timestamp lies
in `[start_ts, end_ts]`, inclusive on both ends, in original order. -/
theorem limit_trade_list_to_period_window
    (trades : List Trade) (start_ts end_ts : ℤ)
    (_hsorted : trades.Pairwise (fun a b => a.timestamp ≤ b.timestamp))
    (hle : start_ts ≤ end_ts) :
    limit_trade_list_to_period trades start_ts end_ts =
      trades.filter (fun t => decide (start_ts ≤ t.timestamp ∧ t.timestamp ≤ end_ts)) := by
  unfold limit_trade_list_to_period
  rw [min_eq_left hle, max_eq_right hle]
  simp [Bool.decide_and]

/-- Witness for C1 at the test's trades and the window
`[1459427706, 1479427708]`. -/
theorem limit_trade_list_to_period_window_witness :
    List.Pairwise (fun a b => a.timestamp ≤ b.timestamp) [trade1, trade2, trade3] ∧
    (1459427706 : ℤ) ≤ 1479427708 ∧
    limit_trade_list_to_period [trade1, trade2, trade3] 1459427706 1479427708 =
      List.filter
        (fun t => decide ((1459427706 : ℤ) ≤ t.timestamp ∧ t.timestamp ≤ (1479427708 : ℤ)))
        [trade1, trade2, trade3] :=
  ⟨by decide, by decide,
    limit_trade_list_to_period_window [trade1, trade2, trade3] 1459427706 1479427708
      (by decide) (by decide)⟩

/-- C1 counterexample: with inverted bounds (`start_ts > end_ts`) the
function does not return the set `{e : start_ts ≤ e.timestamp ≤ end_ts}`
(which is empty), because the implementation is insensitive to bound order. -/
theorem limit_trade_list_to_period_window_counterexample :
    limit_trade_list_to_period [trade1] 1479427708 0 ≠
      List.filter
        (fun t => decide ((1479427708 : ℤ) ≤ t.timestamp ∧ t.timestamp ≤ (0 : ℤ)))
        [trade1] := by
  decide

/-- C5: `limit_trade_list_to_period` is total on inverted windows and
applies the bound-order-insensitive predicate
`min start_ts end_ts ≤ timestamp ≤ max start_ts end_ts` to each element, so
the result is the same as with the bounds swapped. -/
theorem limit_trade_list_to_period_bound_order_insensitive
    (trades : List Trade) (start_ts end_ts : ℤ) :
    limit_trade_list_to_period trades start_ts end_ts =
      limit_trade_list_to_period trades end_ts start_ts ∧
    ∀ t, t ∈ limit_trade_list_to_period trades start_ts end_ts ↔
      t ∈ trades ∧ min start_ts end_ts ≤ t.timestamp ∧ t.timestamp ≤ max start_ts end_ts := by
  constructor
  · unfold limit_trade_list_to_period
    rw [min_comm, max_comm]
  · intro t
    unfold limit_trade_list_to_period
    simp [List.mem_filter, and_assoc]

/-- C6 counterexample: for the three test trades, the window
`[1459427708, 1479427706]` (that is `[T1+1, T3-1]`) does not return the
events with timestamps T2 and T3. -/
theorem limit_window_t1p1_t3m1_counterexample :
    limit_trade_list_to_period [trade1, trade2, trade3] 1459427708 1479427706 ≠
      [trade2, trade3] := by
  decide

/-- C6 (amended): for the three test trades, the window
`[1459427708, 1479427706]` (that is `[T1+1, T3-1]`) returns exactly the
event with timestamp T2, since T3 = 1479427707 lies outside the inclusive
upper bound 1479427706. -/
theorem limit_window_t1p1_t3m1 :
    limit_trade_list_to_period [trade1, trade2, trade3] 1459427708 1479427706 =
      [trade2] := by
  decide

/-- The valid kraken deposit record of the asset-movements cache tests. -/
def krakenDepositRaw : RawValue :=
  RawValue.obj
    [("exchange", RawValue.str "kraken"), ("category", RawValue.str "deposit"),
     ("timestamp", RawValue.int 1520938730), ("asset", RawValue.str "KFEE"),
     ("amount", RawValue.str "100.0"), ("fee", RawValue.str "0.0")]

/-- C9: decimal parsing of amount/fee/rate fields is exact: `"0.0"` and
`"0"` are both accepted and parse to the same zero, and the test's kraken
record with fee `"0.0"` deserializes to fee `FVal('0')` (and amount
`FVal('100')` from `"100.0"`). -/
theorem decimal_parsing_exact :
    parseDecimal "0.0" = some 0 ∧ parseDecimal "0" = some 0 ∧
    parseDecimal "0.0" = parseDecimal "0" ∧
    ∃ m, deserializeAssetMovement krakenDepositRaw = Except.ok m ∧
      m.fee = 0 ∧ m.amount = 100 := by
  have h1 : parseDecimal "0.0" = some 0 := by
    show some (((0 : ℕ) : ℚ) + ((0 : ℕ) : ℚ) / (10 : ℚ) ^ (1 : ℕ)) = some 0
    norm_num
  have h2 : parseDecimal "0" = some 0 := by
    show some (((0 : ℕ) : ℚ)) = some 0
    norm_num
  refine
    ⟨h1, h2, h1.trans h2.symm,
      { exchange := Exchange.kraken, category := "deposit", timestamp := 1520938730,
        asset := Asset.mk "KFEE",
        amount := ((100 : ℕ) : ℚ) + ((0 : ℕ) : ℚ) / (10 : ℚ) ^ (1 : ℕ),
        fee := ((0 : ℕ) : ℚ) + ((0 : ℕ) : ℚ) / (10 : ℚ) ^ (1 : ℕ) },
      rfl, ?_, ?_⟩
  · show ((0 : ℕ) : ℚ) + ((0 : ℕ) : ℚ) / (10 : ℚ) ^ (1 : ℕ) = 0
    norm_num
  · show ((100 : ℕ) : ℚ) + ((0 : ℕ) : ℚ) / (10 : ℚ) ^ (1 : ℕ) = 100
    norm_num

/-- A successful run of the asset-movement deserializer pins the shape of
every required field of the record and ties each field of the produced
event to the record. -/
theorem deserializeAssetMovement_ok_shape {f : List (String × RawValue)}
    {m : AssetMovement}
    (h : deserializeAssetMovement (RawValue.obj f) = Except.ok m) :
    (∃ s, lookupField f "exchange" = some (RawValue.str s) ∧
       exchangeFromString s = some m.exchange) ∧
    (lookupField f "category" = some (RawValue.str m.category) ∧
       (m.category = "deposit" ∨ m.category = "withdrawal")) ∧
    lookupField f "timestamp" = some (RawValue.int m.timestamp) ∧
    (lookupField f "asset" = some (RawValue.str m.asset.symbol) ∧
       m.asset.symbol ∈ knownAssets) ∧
    (∃ av, lookupField f "amount" = some av ∧ rawToDecimal av = some m.amount) ∧
    (∃ fv, lookupField f "fee" = some fv ∧ rawToDecimal fv = some m.fee) := by
  simp only [deserializeAssetMovement] at h
  repeat' split at h
  all_goals try (exact Except.noConfusion h)
  rename_i x8 exs hex x7 ex hexf x6 cat hcat hdep x5 ts hts x4 a ha hknown
    x3 av hav x2 amount hamt x1 fv hfv x0 fee hfee
  injection h with h2
  subst h2
  exact ⟨⟨exs, hex, hexf⟩, ⟨hcat, hdep⟩, hts, ⟨ha, hknown⟩,
    ⟨av, hav, hamt⟩, ⟨fv, hfv, hfee⟩⟩

/-- A failed `Except HistoryCacheInvalid` computation carries the unique
`HistoryCacheInvalid` error. -/
theorem except_eq_error_of_not_ok {α : Type} {x : Except HistoryCacheInvalid α}
    (h : x.isOk = false) : x = Except.error HistoryCacheInvalid.mk := by
  cases x with
  | error e => cases e; rfl
  | ok m => simp [Except.isOk, Except.toBool] at h

/-- Any of the eight corruption modes makes the asset-movement deserializer
fail with `HistoryCacheInvalid`. -/
theorem badMovementRecord_fails {f : List (String × RawValue)}
    (hbad : badMovementRecord f = true) :
    deserializeAssetMovement (RawValue.obj f) = Except.error HistoryCacheInvalid.mk := by
  cases hres : deserializeAssetMovement (RawValue.obj f) with
  | error e => cases e; rfl
  | ok m =>
    exfalso
    obtain ⟨⟨s, hex, hexres⟩, ⟨hcat, hdep⟩, hts, ⟨ha, haknown⟩,
      ⟨av, hav, hamt⟩, ⟨fv, hfv, hfee⟩⟩ := deserializeAssetMovement_ok_shape hres
    simp only [badMovementRecord, Bool.or_eq_true] at hbad
    rcases hbad with ((((((hb | hb) | hb) | hb) | hb) | hb) | hb) | hb
    · simp [hasMissingKey, requiredMovementKeys, hex, hcat, hts, ha, hav, hfv] at hb
    · simp [timestampIsString, hts] at hb
    · simp [amountIsNull, hav] at hb
      cases av <;> simp at hb
      simp [rawToDecimal] at hamt
    · simp [feeNonNumericString, hfv] at hb
      cases fv <;> simp at hb
      simp only [rawToDecimal] at hfee
      rw [hfee] at hb
      simp at hb
    · simp [assetIsList, ha] at hb
    · simp [exchangeUnrecognized, hex, hexres] at hb
    · simp [categoryUnrecognized, hcat] at hb
      cases hdep with
      | inl hd => exact hb.1 hd
      | inr hd => exact hb.2 hd
    · simp [assetUnresolved, ha] at hb
      exact hb haknown

/-- One failing record anywhere in the cached `data` list makes the whole
cached-list deserialization fail. -/
theorem deserializeMovements_error_of_mem {d : List RawValue} {r : RawValue}
    (hmem : r ∈ d)
    (hr : deserializeAssetMovement r = Except.error HistoryCacheInvalid.mk) :
    deserializeMovements d = Except.error HistoryCacheInvalid.mk := by
  induction d with
  | nil => cases hmem
  | cons x xs ih =>
    rcases List.mem_cons.mp hmem with rfl | hmem2
    · rw [deserializeMovements, hr]
    · rw [deserializeMovements]
      cases hx : deserializeAssetMovement x with
      | error e => cases e; rfl
      | ok m =>
        rw [ih hmem2]

/-- C2: for every structurally valid asset-movements cache envelope whose
data list contains a record exhibiting any of the eight corruption modes
(missing required key, string timestamp, null amount, non-numeric fee
string, list-valued asset, unrecognized exchange, unrecognized category,
unresolved asset identifier), reading the cached asset movements fails with
`HistoryCacheInvalid` instead of silently dropping the bad record. -/
theorem cached_asset_movements_invalid_on_bad_record
    (file : RawValue) (start_ts end_ts : ℤ) (eal : Option ℤ)
    (st et : ℤ) (d : List RawValue) (f : List (String × RawValue))
    (henv : parseEnvelope file = some (st, et, d))
    (hmem : RawValue.obj f ∈ d)
    (hbad : badMovementRecord f = true) :
    get_cached_asset_movements (some file) start_ts end_ts eal =
      Except.error HistoryCacheInvalid.mk := by
  simp only [get_cached_asset_movements, henv]
  by_cases hcov : coverageOk st et start_ts end_ts eal = true
  · rw [if_pos hcov]
    exact deserializeMovements_error_of_mem hmem (badMovementRecord_fails hbad)
  · rw [if_neg hcov]

/-- The record of the invalid-cache test with its `category` key removed. -/
def fieldsMissingCategory : List (String × RawValue) :=
  [("exchange", RawValue.str "kraken"),
   ("timestamp", RawValue.int 1520938730), ("asset", RawValue.str "KFEE"),
   ("amount", RawValue.str "100.0"), ("fee", RawValue.str "0.0")]

/-- A cache envelope holding only the record with the missing key. -/
def envMissingCategory : RawValue :=
  RawValue.obj
    [("start_time", RawValue.int 0), ("end_time", RawValue.int 1601040361),
     ("data", RawValue.list [RawValue.obj fieldsMissingCategory])]

/-- Witness for C2 at the missing-`category` record of the invalid-cache
test. -/
theorem cached_asset_movements_invalid_on_bad_record_witness :
    parseEnvelope envMissingCategory =
      some (0, 1601040361, [RawValue.obj fieldsMissingCategory]) ∧
    RawValue.obj fieldsMissingCategory ∈ [RawValue.obj fieldsMissingCategory] ∧
    badMovementRecord fieldsMissingCategory = true ∧
    get_cached_asset_movements (some envMissingCategory) 0 1601040361 (some 1601040361) =
      Except.error HistoryCacheInvalid.mk :=
  ⟨rfl, List.mem_cons_self _ _, by decide,
    cached_asset_movements_invalid_on_bad_record envMissingCategory 0 1601040361
      (some 1601040361) 0 1601040361 [RawValue.obj fieldsMissingCategory]
      fieldsMissingCategory rfl (List.mem_cons_self _ _) (by decide)⟩

/-- When every record of a list deserializes, the whole-list deserialization
returns one event per record, in order. -/
theorem deserializeMovements_ok_of_all_ok {d : List RawValue}
    (hall : ∀ r ∈ d, (deserializeAssetMovement r).isOk = true) :
    ∃ ms, deserializeMovements d = Except.ok ms ∧ ms.length = d.length ∧
      ∀ i (hi : i < d.length) (hm : i < ms.length),
        deserializeAssetMovement (d.get ⟨i, hi⟩) = Except.ok (ms.get ⟨i, hm⟩) := by
  induction d with
  | nil => exact ⟨[], rfl, rfl, fun i hi => absurd hi (by simp)⟩
  | cons x xs ih =>
    have hx := hall x (List.mem_cons_self x xs)
    cases hxr : deserializeAssetMovement x with
    | error e => rw [hxr] at hx; simp [Except.isOk, Except.toBool] at hx
    | ok m =>
      obtain ⟨ms, hms, hlen, hidx⟩ := ih (fun r hr => hall r (List.mem_cons_of_mem _ hr))
      refine ⟨m :: ms, ?_, by simp [hlen], ?_⟩
      · rw [deserializeMovements, hxr, hms]
      · intro i hi hm
        cases i with
        | zero => simpa using hxr
        | succ j => simpa using hidx j (by simpa using hi) (by simpa using hm)

/-- C10: for every asset-movements cache whose envelope parses, covers the
requested range, and whose records are all valid, reading the cached asset
movements returns exactly one typed `AssetMovement` per raw record, in the
order of the data list, with every field (canonical exchange, category
string, integer timestamp, resolved asset, exact decimal amount and fee)
taken from the corresponding raw record. -/
theorem cached_asset_movements_valid_roundtrip
    (file : RawValue) (start_ts end_ts : ℤ) (eal : Option ℤ)
    (st et : ℤ) (d : List RawValue)
    (henv : parseEnvelope file = some (st, et, d))
    (hcov : coverageOk st et start_ts end_ts eal = true)
    (hall : ∀ r ∈ d, (deserializeAssetMovement r).isOk = true) :
    ∃ ms, get_cached_asset_movements (some file) start_ts end_ts eal = Except.ok ms ∧
      ms.length = d.length ∧
      (∀ i (hi : i < d.length) (hm : i < ms.length),
        deserializeAssetMovement (d.get ⟨i, hi⟩) = Except.ok (ms.get ⟨i, hm⟩)) ∧
      ∀ i (hi : i < d.length) (hm : i < ms.length) (f : List (String × RawValue)),
        d.get ⟨i, hi⟩ = RawValue.obj f →
        ((∃ s, lookupField f "exchange" = some (RawValue.str s) ∧
            exchangeFromString s = some ((ms.get ⟨i, hm⟩).exchange)) ∧
         lookupField f "category" = some (RawValue.str ((ms.get ⟨i, hm⟩).category)) ∧
         lookupField f "timestamp" = some (RawValue.int ((ms.get ⟨i, hm⟩).timestamp)) ∧
         lookupField f "asset" = some (RawValue.str ((ms.get ⟨i, hm⟩).asset.symbol)) ∧
         (∃ av, lookupField f "amount" = some av ∧
            rawToDecimal av = some ((ms.get ⟨i, hm⟩).amount)) ∧
         ∃ fv, lookupField f "fee" = some fv ∧
            rawToDecimal fv = some ((ms.get ⟨i, hm⟩).fee)) := by
  obtain ⟨ms, hms, hlen, hidx⟩ := deserializeMovements_ok_of_all_ok hall
  refine ⟨ms, ?_, hlen, hidx, ?_⟩
  · simp only [get_cached_asset_movements, henv]
    rw [if_pos hcov]
    exact hms
  · intro i hi hm f hf
    have h := hidx i hi hm
    rw [hf] at h
    obtain ⟨⟨s, h1, h2⟩, ⟨h3, -⟩, h4, ⟨h5, -⟩, h6, h7⟩ :=
      deserializeAssetMovement_ok_shape h
    exact ⟨⟨s, h1, h2⟩, h3, h4, h5, h6, h7⟩

/-- The poloniex withdrawal record of the asset-movements cache test. -/
def poloniexWithdrawalRaw : RawValue :=
  RawValue.obj
    [("exchange", RawValue.str "poloniex"), ("category", RawValue.str "withdrawal"),
     ("timestamp", RawValue.int 1510938730), ("asset", RawValue.str "BTC"),
     ("amount", RawValue.str "2.5"), ("fee", RawValue.str "0.00001")]

/-- The two-record asset-movements cache envelope of the test. -/
def envTwoMovements : RawValue :=
  RawValue.obj
    [("start_time", RawValue.int 0), ("end_time", RawValue.int 1601040361),
     ("data", RawValue.list [krakenDepositRaw, poloniexWithdrawalRaw])]

/-- Witness for C10 at the test's two-record cache. -/
theorem cached_asset_movements_valid_roundtrip_witness :
    parseEnvelope envTwoMovements =
      some (0, 1601040361, [krakenDepositRaw, poloniexWithdrawalRaw]) ∧
    coverageOk 0 1601040361 0 1601040361 (some 1601040361) = true ∧
    (∀ r ∈ [krakenDepositRaw, poloniexWithdrawalRaw],
      (deserializeAssetMovement r).isOk = true) ∧
    ∃ ms,
      get_cached_asset_movements (some envTwoMovements) 0 1601040361 (some 1601040361) =
        Except.ok ms ∧
      ms.length = [krakenDepositRaw, poloniexWithdrawalRaw].length := by
  refine ⟨rfl, by decide, by decide, ?_⟩
  obtain ⟨ms, h1, h2, -, -⟩ :=
    cached_asset_movements_valid_roundtrip envTwoMovements 0 1601040361 (some 1601040361)
      0 1601040361 [krakenDepositRaw, poloniexWithdrawalRaw] rfl (by decide) (by decide)
  exact ⟨ms, h1, h2⟩

/-- The coverage test spelled out as the conjunction of inequalities the
spec states. -/
theorem coverageOk_iff {st et s e : ℤ} {eal : Option ℤ} :
    coverageOk st et s e eal = true ↔
      st ≤ s ∧ e ≤ et ∧ ∀ t, eal = some t → t ≤ et := by
  unfold coverageOk
  cases eal <;> simp [and_assoc]

/-- C8: a cache envelope is usable iff it parses and its range covers the
request (`start_time ≤ start_ts`, `end_time ≥ end_ts`, and
`end_time ≥ end_at_least_ts` when given); an absent, malformed or
gap-covered envelope is not usable and triggers a full live refetch for the
pair, with no partial cache reuse. -/
theorem cache_usable_iff_coverage (exch : String) (file : Option RawValue)
    (liveRecords : List RawValue) (start_ts end_ts : ℤ) (eal : Option ℤ) :
    ((∃ ms, get_cached_asset_movements file start_ts end_ts eal = Except.ok ms) →
      ∃ v st et d, file = some v ∧ parseEnvelope v = some (st, et, d) ∧
        st ≤ start_ts ∧ end_ts ≤ et ∧ ∀ t, eal = some t → t ≤ et) ∧
    (file = none →
      getMovementsWithCacheFallback exch file liveRecords start_ts end_ts eal =
        processMovementBatch exch liveRecords) ∧
    (∀ v, file = some v → parseEnvelope v = none →
      getMovementsWithCacheFallback exch file liveRecords start_ts end_ts eal =
        processMovementBatch exch liveRecords) ∧
    (∀ v st et d, file = some v → parseEnvelope v = some (st, et, d) →
      ¬(st ≤ start_ts ∧ end_ts ≤ et ∧ ∀ t, eal = some t → t ≤ et) →
      getMovementsWithCacheFallback exch file liveRecords start_ts end_ts eal =
        processMovementBatch exch liveRecords) := by
  refine ⟨?_, ?_, ?_, ?_⟩
  · rintro ⟨ms, hms⟩
    cases file with
    | none => simp [get_cached_asset_movements] at hms
    | some v =>
      cases hpe : parseEnvelope v with
      | none => simp [get_cached_asset_movements, hpe] at hms
      | some tpl =>
        obtain ⟨st, et, d⟩ := tpl
        by_cases hcov : coverageOk st et start_ts end_ts eal = true
        · obtain ⟨h1, h2, h3⟩ := coverageOk_iff.mp hcov
          exact ⟨v, st, et, d, rfl, hpe, h1, h2, h3⟩
        · simp [get_cached_asset_movements, hpe, hcov] at hms
  · intro h
    subst h
    rfl
  · intro v hv hpe
    subst hv
    unfold getMovementsWithCacheFallback
    simp [get_cached_asset_movements, hpe]
  · intro v st et d hv hpe hncov
    subst hv
    have hcov : coverageOk st et start_ts end_ts eal = false := by
      by_cases h : coverageOk st et start_ts end_ts eal = true
      · exact absurd (coverageOk_iff.mp h) hncov
      · exact Bool.not_eq_true _ |>.mp h
    unfold getMovementsWithCacheFallback
    simp [get_cached_asset_movements, hpe, hcov]

/-- An envelope whose covered range starts too late for the request. -/
def envNotCovering : RawValue :=
  RawValue.obj
    [("start_time", RawValue.int 50), ("end_time", RawValue.int 60),
     ("data", RawValue.list [])]

/-- Witness for C8 at an envelope whose coverage has a gap. -/
theorem cache_usable_iff_coverage_witness :
    parseEnvelope envNotCovering = some (50, 60, []) ∧
    ¬((50 : ℤ) ≤ 0 ∧ (100 : ℤ) ≤ 60 ∧ ∀ t, (none : Option ℤ) = some t → t ≤ 60) ∧
    getMovementsWithCacheFallback "kraken" (some envNotCovering) [] 0 100 none =
      processMovementBatch "kraken" [] := by
  refine ⟨rfl, fun h => absurd h.1 (by decide), ?_⟩
  exact (cache_usable_iff_coverage "kraken" (some envNotCovering) [] 0 100 none).2.2.2
    envNotCovering 50 60 [] rfl rfl (fun h => absurd h.1 (by decide))

/-- C7: a cache whose records all fail deserialization makes the aggregator
fall back to a live fetch: the outcome equals the outcome of a run with no
cache at all, and the warnings and errors are exactly those of processing
the live response alone. -/
theorem corrupt_cache_falls_back_to_live (exch : String) (file : RawValue)
    (liveRecords : List RawValue) (start_ts end_ts : ℤ) (eal : Option ℤ)
    (st et : ℤ) (d : List RawValue)
    (henv : parseEnvelope file = some (st, et, d))
    (hne : d.length ≠ 0)
    (hall : ∀ r ∈ d, (deserializeAssetMovement r).isOk = false) :
    getMovementsWithCacheFallback exch (some file) liveRecords start_ts end_ts eal =
      getMovementsWithCacheFallback exch none liveRecords start_ts end_ts eal ∧
    getMovementsWithCacheFallback exch (some file) liveRecords start_ts end_ts eal =
      processMovementBatch exch liveRecords := by
  have hcached : get_cached_asset_movements (some file) start_ts end_ts eal =
      Except.error HistoryCacheInvalid.mk := by
    cases d with
    | nil => exact absurd rfl hne
    | cons x xs =>
      have hx : deserializeAssetMovement x = Except.error HistoryCacheInvalid.mk :=
        except_eq_error_of_not_ok (hall x (List.mem_cons_self x xs))
      simp only [get_cached_asset_movements, henv]
      by_cases hcov : coverageOk st et start_ts end_ts eal = true
      · rw [if_pos hcov]
        exact deserializeMovements_error_of_mem (List.mem_cons_self x xs) hx
      · rw [if_neg hcov]
  constructor
  · unfold getMovementsWithCacheFallback
    rw [hcached]
    rfl
  · unfold getMovementsWithCacheFallback
    rw [hcached]

/-- The corrupt trade-cache record the corrupt-cache test writes. -/
def corruptTradeFields : List (String × RawValue) :=
  [("unknown_trade_key", RawValue.str "random_trade_value")]

/-- An envelope holding only the corrupt record. -/
def envCorruptRecords : RawValue :=
  RawValue.obj
    [("start_time", RawValue.int 0), ("end_time", RawValue.int 1601040361),
     ("data", RawValue.list [RawValue.obj corruptTradeFields])]

/-- Witness for C7 at the corrupt-record envelope of the test. -/
theorem corrupt_cache_falls_back_to_live_witness :
    parseEnvelope envCorruptRecords =
      some (0, 1601040361, [RawValue.obj corruptTradeFields]) ∧
    [RawValue.obj corruptTradeFields].length ≠ 0 ∧
    (∀ r ∈ [RawValue.obj corruptTradeFields],
      (deserializeAssetMovement r).isOk = false) ∧
    getMovementsWithCacheFallback "kraken" (some envCorruptRecords) [] 0 1601040361
        (some 1601040361) =
      processMovementBatch "kraken" [] :=
  ⟨rfl, by decide, by decide,
    (corrupt_cache_falls_back_to_live "kraken" envCorruptRecords [] 0 1601040361
      (some 1601040361) 0 1601040361 [RawValue.obj corruptTradeFields] rfl (by decide)
      (by decide)).2⟩

/-- C4 (amended: an unresolved or known-but-unsupported asset is downgraded
to a warning, while an unprocessable trading pair is recorded on the error
channel; in all cases the offending record is skipped, exactly one message
naming the exchange and the offending identifier or pair is recorded per
offending record, and sibling valid records are still returned in order;
processing never aborts). -/
theorem trade_batch_warning_error_channels (exch : String) (rs : List RawTradeRecord) :
    processTradeBatch exch rs =
      (rs.filterMap (tradeEventOf exch), rs.filterMap (tradeWarningOf exch),
        rs.filterMap (tradeErrorOf exch)) := by
  induction rs with
  | nil => rfl
  | cons r rs ih =>
    simp only [processTradeBatch, ih, List.filterMap_cons]
    cases h : classifyTradeRecord exch r <;>
      simp [tradeEventOf, tradeWarningOf, tradeErrorOf, h]

/-- The kraken record with the unprocessable pair the history-creation test
expects on the error channel. -/
def badPairRecord : RawTradeRecord :=
  { pair := "IDONTEXISTZEUR", timestamp := 1459427707, trade_type := TradeType.buy,
    amount := 1, rate := 1, fee := 1 }

/-- C4 counterexample: a record with an unrecognized trading pair is not
downgraded to a warning — it produces an error-channel message (and no
warning), as the history-creation test asserts. -/
theorem trade_unprocessable_pair_error_counterexample :
    (processTradeBatch "kraken" [badPairRecord]).2.2 =
      ["kraken trade with unprocessable pair IDONTEXISTZEUR"] ∧
    (processTradeBatch "kraken" [badPairRecord]).2.1 = [] := by
  decide

/-- Did an `Except` computation fail? -/
def exceptFailed {ε α : Type} (x : Except ε α) : Bool :=
  match x with
  | Except.error _ => true
  | Except.ok _ => false

/-- Every name listed in an enumeration occurs inside the rendered string. -/
theorem mem_data_infix_renderNames {s : String} {l : List String} (h : s ∈ l) :
    s.data <:+: (renderNames l).data := by
  induction l with
  | nil => cases h
  | cons n rest ih =>
    cases rest with
    | nil =>
      rcases List.mem_singleton.mp h with rfl
      exact List.infix_rfl
    | cons m rest2 =>
      rcases List.mem_cons.mp h with rfl | h2
      · show s.data <:+: (s ++ ", " ++ renderNames (m :: rest2)).data
        rw [String.data_append, String.data_append]
        exact ((List.prefix_append s.data (", " : String).data).trans
          (List.prefix_append (s.data ++ (", " : String).data)
            (renderNames (m :: rest2)).data)).isInfix
      · show s.data <:+: (n ++ ", " ++ renderNames (m :: rest2)).data
        rw [String.data_append, String.data_append]
        exact (ih h2).trans (List.suffix_append _ _).isInfix

/-- When every exchange's fetch failed, the failing-name list is the full
name list, in order. -/
theorem failedNames_eq_map_of_all_failed {srcs : List ExchangeSource}
    (hall : ∀ s ∈ srcs, exceptFailed s.fetched = true) :
    failedNames srcs = srcs.map (fun s => s.name) := by
  induction srcs with
  | nil => rfl
  | cons x xs ih =>
    have hx := hall x (List.mem_cons_self x xs)
    cases hf : x.fetched with
    | error msg =>
      simp only [failedNames, List.filterMap_cons, hf, List.map_cons]
      exact congrArg _ (ih fun s hs => hall s (List.mem_cons_of_mem _ hs))
    | ok dta =>
      rw [hf] at hx
      simp [exceptFailed] at hx

/-- An exchange whose fetch failed contributes no events to any category. -/
theorem exchangeEvents_nil_of_failed {s : ExchangeSource}
    (h : exceptFailed s.fetched = true) (c : Category) :
    exchangeEvents s c = [] := by
  unfold exchangeEvents
  cases hf : s.fetched with
  | error msg => rfl
  | ok dta =>
    rw [hf] at h
    simp [exceptFailed] at h

/-- When every exchange's fetch failed, the merged event list of every
category is empty. -/
theorem eventsByCategory_nil_of_all_failed {srcs : List ExchangeSource}
    (hall : ∀ s ∈ srcs, exceptFailed s.fetched = true) (c : Category) :
    (get_history srcs).eventsByCategory c = [] := by
  show srcs.foldr (fun s acc => exchangeEvents s c ++ acc) [] = []
  induction srcs with
  | nil => rfl
  | cons x xs ih =>
    rw [List.foldr_cons, exchangeEvents_nil_of_failed (hall x (List.mem_cons_self x xs)) c,
      List.nil_append]
    exact ih fun s hs => hall s (List.mem_cons_of_mem _ hs)

/-- C3: if every one of the configured exchanges returns a remote error
during `get_history`, the overall message enumerates all failing exchanges
(each exchange's name occurs in it), and the returned event mapping is empty
for every category. -/
theorem all_exchanges_remote_error (srcs : List ExchangeSource)
    (hne : srcs.length ≠ 0)
    (hall : ∀ s ∈ srcs, exceptFailed s.fetched = true) :
    (get_history srcs).message = renderNames (srcs.map (fun s => s.name)) ∧
    (∀ s ∈ srcs, (s.name).data <:+: ((get_history srcs).message).data) ∧
    ∀ c, (get_history srcs).eventsByCategory c = [] := by
  have hfn : failedNames srcs = srcs.map (fun s => s.name) :=
    failedNames_eq_map_of_all_failed hall
  have hmsg : (get_history srcs).message = renderNames (srcs.map fun s => s.name) := by
    show (if srcs.length ≠ 0 ∧ (failedNames srcs).length = srcs.length
          then renderNames (failedNames srcs) else "") =
      renderNames (srcs.map fun s => s.name)
    rw [hfn, List.length_map]
    exact if_pos ⟨hne, rfl⟩
  refine ⟨hmsg, ?_, fun c => eventsByCategory_nil_of_all_failed hall c⟩
  intro s hs
  rw [hmsg]
  exact mem_data_infix_renderNames (List.mem_map_of_mem _ hs)

/-- The five configured exchanges of the remote-errors test, every fetch
failing remotely. -/
def remoteErrorSources : List ExchangeSource :=
  [{ name := "Kraken", fetched := Except.error "invalid JSON" },
   { name := "Poloniex", fetched := Except.error "invalid JSON" },
   { name := "Binance", fetched := Except.error "invalid JSON" },
   { name := "Bittrex", fetched := Except.error "invalid JSON" },
   { name := "Bitmex", fetched := Except.error "invalid JSON" }]

/-- Witness for C3 at the five all-failing exchanges of the test. -/
theorem all_exchanges_remote_error_witness :
    remoteErrorSources.length ≠ 0 ∧
    (∀ s ∈ remoteErrorSources, exceptFailed s.fetched = true) ∧
    (get_history remoteErrorSources).message =
      renderNames ["Kraken", "Poloniex", "Binance", "Bittrex", "Bitmex"] ∧
    ∀ c, (get_history remoteErrorSources).eventsByCategory c = [] := by
  have h := all_exchanges_remote_error remoteErrorSources (by decide) (by decide)
  exact ⟨by decide, by decide, h.1, h.2.2⟩
